import Mathlib

/-!
A shallow embedding of `verl/utils/dataset.py` (dataset loading and example
preprocessing for an RLHF training pipeline), together with theorems checking
the repository's specification against it.

External collaborators (tokenizer, multimodal processor, PIL image decoding,
jinja template rendering, the rotary-index routine from
`verl/models/transformers/qwen2_vl.py`) are modelled as opaque function
parameters gathered in a `Backend` structure: every theorem quantifies over
them, so nothing is assumed about their behaviour beyond their shapes.
Python dicts are modelled as association lists with unique-key (dict-like)
operations; tensors are `List Nat`.
-/

namespace VerlDataset

/-- The three recognized values of the `truncation` configuration option
(`"left"`, `"right"`, `"error"`). -/
inductive Truncation where
  | left
  | right
  | error
  deriving DecidableEq, Repr

/-- A decoded image as seen by `process_image`: its pixel dimensions and its
color mode string (PIL `Image.mode`, e.g. `"RGB"`, `"RGBA"`, `"L"`). -/
structure PImage where
  width : Nat
  height : Nat
  mode : String
  deriving DecidableEq, Repr

/-- The forms of image reference accepted by `process_image` (lines 56-62):
a file path string, a dict with a `bytes` field, raw bytes, or an
already-decoded image object. -/
inductive ImageRef where
  | path (p : String)
  | bytesDict (b : List Nat)
  | rawBytes (b : List Nat)
  | decoded (img : PImage)
  deriving DecidableEq, Repr

/-- One entry of a structured chat-message content list
(`{"type": "image"}` or `{"type": "text", "text": s}`). -/
inductive ContentPart where
  | image
  | text (s : String)
  deriving DecidableEq, Repr

/-- Message content: either a raw prompt string (text-only records) or a
typed content-part list (image records). -/
inductive MsgContent where
  | str (s : String)
  | parts (l : List ContentPart)
  deriving DecidableEq, Repr

/-- One chat message (`{"role": ..., "content": ...}`). -/
structure Message where
  role : String
  content : MsgContent
  deriving DecidableEq, Repr

/-- `position_ids` as produced by `__getitem__`: a single-axis sequence
(line 204/399) or a 3-axis temporal/height/width sequence from
`get_rope_index` (lines 196-201). -/
inductive PosIds where
  | one (p : List Nat)
  | three (t h w : List Nat)
  deriving DecidableEq, Repr

/-- `some` of the three row lists of a `PosIds`. -/
def PosIds.rows : PosIds → List (List Nat)
  | .one p => [p]
  | .three t h w => [t, h, w]

/-- Whether a `PosIds` is the 3-axis (multimodal rotary) form. -/
def PosIds.isThree : PosIds → Bool
  | .one _ => false
  | .three _ _ _ => true

/-- The per-image temporal/height/width grid descriptor
(`image_grid_thw`) returned by the multimodal processor. -/
abbrev Grid := List (Nat × Nat × Nat)

/-- A value stored in a record dict: a string, an image-reference list, a
token-id tensor, a position-id tensor, the `multi_modal_data` nested dict
(which holds exactly one `image` field), or an opaque payload (e.g. the
`location` metadata of variant B). -/
inductive Val where
  | str (s : String)
  | imgs (l : List ImageRef)
  | ids (l : List Nat)
  | posv (p : PosIds)
  | mm (l : List ImageRef)
  | obj (n : Nat)
  deriving DecidableEq, Repr

/-- A record dict (a Python `dict` keyed by field-name strings), modelled as
an association list. -/
abbrev Record := List (String × Val)

/-- Dict lookup (`example[key]` / `key in example`): first matching key. -/
def lookupRec : Record → String → Option Val
  | [], _ => none
  | (k, v) :: rest, key => if k = key then some v else lookupRec rest key

/-- `key in example`. -/
def hasKey (r : Record) (k : String) : Bool :=
  (lookupRec r k).isSome

/-- Dict assignment `example[key] = v`: overwrite in place when present,
append when absent. -/
def setKey : Record → String → Val → Record
  | [], key, v => [(key, v)]
  | (k, w) :: rest, key, v =>
    if k = key then (key, v) :: rest else (k, w) :: setKey rest key v

/-- Dict key removal (every binding of the key, matching the unique-key
invariant of Python dicts). -/
def eraseKey : Record → String → Record
  | [], _ => []
  | (k0, v) :: rest, k =>
    if k0 = k then eraseKey rest k else (k0, v) :: eraseKey rest k

/-- `example.pop(key)`: the value and the dict without the key, or failure
(`KeyError`) when the key is absent. -/
def popKey (r : Record) (k : String) : Option (Val × Record) :=
  match lookupRec r k with
  | some v => some (v, eraseKey r k)
  | none => none

/-- Read a string-typed field (any other runtime type would make the Python
string operations on it fail). -/
def Val.asStr : Val → Option String
  | .str s => some s
  | _ => none

/-- Read an image-list-typed field. -/
def Val.asImgs : Val → Option (List ImageRef)
  | .imgs l => some l
  | _ => none

/-- The configuration surface shared by both dataset variants
(constructor keyword arguments, lines 85-99 and 266-281), with the
constructors' default values. `format_prompt`, when configured, is the
jinja2 `Template(...).render(content=...)` substitution, modelled as an
opaque string-to-string function. -/
structure Config where
  prompt_key : String := "prompt"
  answer_key : String := "answer"
  image_key : String := "images"
  max_prompt_length : Nat := 1024
  truncation : Truncation := Truncation.error
  format_prompt : Option (String → String) := none
  max_pixels : Option Nat := none
  min_pixels : Option Nat := none
  filter_overlong_prompts : Bool := true

/-- The external processing stack: tokenizer, optional multimodal processor,
image decoding, and the rotary-index routine. All opaque.
`tok_apply_chat_template` / `proc_apply_chat_template` model
`apply_chat_template(..., add_generation_prompt=True, tokenize=False)`;
the `_tok` variants model the tokenizing form used by
`_filter_overlong_prompts` (no `tokenize=False`, so token ids come back).
`proc_encode` models `processor(images, [prompt], add_special_tokens=False,
return_tensors="pt")` squeezed to one example: token ids, attention mask and
the optional `image_grid_thw` descriptor. `tok_encode` models
`tokenizer.encode(prompt, add_special_tokens=False)`; the text-only call
`tokenizer([prompt], add_special_tokens=False)` yields those same ids with
an all-ones attention mask. `is_qwen2_vl_image_processor` models the
class-name test on line 194/389, and `get_rope_index` the external routine
producing a 3-by-seq-length index array. -/
structure Backend where
  pad_token_id : Nat
  decode_image : ImageRef → PImage
  tok_apply_chat_template : List Message → String
  tok_apply_chat_template_tok : List Message → List Nat
  proc_apply_chat_template : List Message → String
  proc_apply_chat_template_tok : List Message → List Nat
  tok_encode : String → List Nat
  proc_encode : List PImage → String → List Nat × List Nat × Option Grid
  processor_some : Bool
  is_qwen2_vl_image_processor : Bool
  get_rope_index : List Nat → Option Grid → List Nat → List Nat × List Nat × List Nat

/-! ## `process_image` (lines 56-77) -/

/-- The resize of lines 65-67 and 70-72 under exact real arithmetic:
`int(d * math.sqrt(target / (w * h)))` for a dimension `d` equals
`⌊√(d² · target / (w·h))⌋ = Nat.sqrt (d * d * target / (w * h))`
(floor of a real square root of a nonnegative rational equals `Nat.sqrt` of
the rational's floor, and `Nat` division is that floor). The spec's numeric
semantics section prescribes real-valued scale factors truncated to
integers, which this encodes exactly over `Nat`. -/
def resize_dims (w h target : Nat) : Nat × Nat :=
  (Nat.sqrt (w * w * target / (w * h)), Nat.sqrt (h * h * target / (w * h)))

/-- `image.convert("RGB")` applied when `image.mode != "RGB"` (lines 74-75). -/
def rgb_convert (img : PImage) : PImage :=
  if img.mode = "RGB" then img else { img with mode := "RGB" }

/-- The downscale branch (lines 64-67): when the pixel count exceeds
`max_pixels`, both dimensions are scaled by `sqrt(max_pixels / pixel_count)`
and truncated. -/
def downscale_step (img : PImage) (maxP : Nat) : PImage :=
  if img.width * img.height > maxP then
    { width := (resize_dims img.width img.height maxP).1,
      height := (resize_dims img.width img.height maxP).2,
      mode := img.mode }
  else img

/-- The upscale branch (lines 69-72): when the pixel count is below
`min_pixels`, both dimensions are scaled by `sqrt(min_pixels / pixel_count)`
and truncated. A zero pixel count entering this branch divides by zero
(`min_pixels / (width * height)` raises `ZeroDivisionError`), modelled as
`none`. -/
def upscale_step (img : PImage) (minP : Nat) : Option PImage :=
  if img.width * img.height < minP then
    if img.width * img.height = 0 then none
    else
      some { width := (resize_dims img.width img.height minP).1,
             height := (resize_dims img.width img.height minP).2,
             mode := img.mode }
  else some img

/-- The resizing/mode-normalization part of `process_image` (lines 64-77),
acting on an already-decoded image: the downscale check runs first (line
64), the upscale check second (line 69) on the possibly-downscaled image,
then the mode conversion (lines 74-75). A `none` pixel bound makes the
corresponding Python comparison (`>` / `<` against `None`) raise
`TypeError`, modelled as `none`. -/
def normalize_image (img : PImage) (min_pixels max_pixels : Option Nat) : Option PImage :=
  match max_pixels with
  | none => none
  | some maxP =>
    match min_pixels with
    | none => none
    | some minP =>
      match upscale_step (downscale_step img maxP) minP with
      | none => none
      | some img2 => some (rgb_convert img2)

/-- `process_image` (lines 56-77): decode the accepted reference forms
through the external decoder (PIL `Image.open`, lines 57-62), then resize
and normalize the mode. -/
def process_image (bk : Backend) (image : ImageRef) (min_pixels max_pixels : Option Nat) :
    Option PImage :=
  let img :=
    match image with
    | .decoded i => i
    | r => bk.decode_image r
  normalize_image img min_pixels max_pixels

/-! ## `_build_messages` (lines 133-151, duplicated at 328-346) -/

/-- Template rendering of lines 135-137: when a format prompt is configured,
substitute the raw prompt into it; otherwise the prompt is used as is. -/
def render_prompt (fmt : Option (String → String)) (p : String) : String :=
  match fmt with
  | some f => f p
  | none => p

/-- The loop of lines 142-147: for each segment of the prompt split on
`"<image>"`, an image part when the segment index is nonzero, then a text
part when the segment is nonempty. -/
def content_parts : Nat → List String → List ContentPart
  | _, [] => []
  | i, c :: rest =>
    (if i ≠ 0 then [ContentPart.image] else []) ++
    (if c ≠ "" then [ContentPart.text c] else []) ++
    content_parts (i + 1) rest

/-- `_build_messages` (lines 133-151): one user message whose content is a
content-part list when the record has an image field, the (optionally
templated) prompt string otherwise. The caller passes
`has_image = hasKey example image_key`. -/
def build_messages (fmt : Option (String → String)) (has_image : Bool) (prompt : String) :
    List Message :=
  let ps := render_prompt fmt prompt
  if has_image then
    [{ role := "user", content := MsgContent.parts (content_parts 0 (ps.splitOn "<image>")) }]
  else
    [{ role := "user", content := MsgContent.str ps }]

/-- The spec's own wording of the content-part interleaving (§4.2): a text
part for segment 0 if non-empty, then for each subsequent segment an
image-placeholder part followed by a text part if that segment is
non-empty. Stated from the spec, for comparison with `content_parts`. -/
def spec_content_parts : List String → List ContentPart
  | [] => []
  | s0 :: rest =>
    (if s0 ≠ "" then [ContentPart.text s0] else []) ++
    (rest.map (fun s => ContentPart.image :: (if s ≠ "" then [ContentPart.text s] else []))).flatten

/-- Whether a content part is an image placeholder. -/
def ContentPart.isImage : ContentPart → Bool
  | .image => true
  | .text _ => false

/-! ## Position ids and padding (lines 194-214, duplicated at 389-409) -/

/-- Inclusive running sums (`torch.cumsum(dim=0)`) starting from `acc`. -/
def cumsum_from (acc : Nat) : List Nat → List Nat
  | [] => []
  | x :: xs => (acc + x) :: cumsum_from (acc + x) xs

/-- Line 204: `torch.clip(attention_mask.cumsum(dim=0) - 1, min=0)`.
Truncated `Nat` subtraction is exactly `clip(x - 1, min=0)` for the
nonnegative cumulative sums. -/
def pos_from_mask (mask : List Nat) : List Nat :=
  (cumsum_from 0 mask).map (fun s => s - 1)

/-- Lines 194-204: 3-axis rotary indices from the external `get_rope_index`
when the processor's image processor is the Qwen2-VL one, otherwise the
single-axis clipped cumulative sum. -/
def derive_position_ids (bk : Backend) (ids mask : List Nat) (grid : Option Grid) : PosIds :=
  if bk.is_qwen2_vl_image_processor then
    match bk.get_rope_index ids grid mask with
    | (t, h, w) => PosIds.three t h w
  else
    PosIds.one (pos_from_mask mask)

/-- Modelled from the spec: the call on lines 206-214 goes to
`VF.postprocess_data` (`verl/utils/torch_functional.py`), which is not
included under `src/`. Spec §4.4 step 6: pad to exactly `max_length`
with the padding inserted at the front when the sequence is shorter;
when longer, `"left"` drops from the front, `"right"` drops from the end,
and `"error"` is fatal. -/
def pad_or_truncate (pad max_length : Nat) (tr : Truncation) (xs : List Nat) :
    Option (List Nat) :=
  if xs.length ≤ max_length then
    some (List.replicate (max_length - xs.length) pad ++ xs)
  else
    match tr with
    | .left => some (xs.drop (xs.length - max_length))
    | .right => some (xs.take max_length)
    | .error => none

/-- Modelled from the spec: the `position_ids` leg of `postprocess_data`,
applied along the last axis with pad value 0, preserving the 1-axis or
3-axis shape (spec §4.4 step 6). -/
def pad_or_truncate_pos (max_length : Nat) (tr : Truncation) : PosIds → Option PosIds
  | .one p =>
    match pad_or_truncate 0 max_length tr p with
    | some q => some (PosIds.one q)
    | none => none
  | .three t h w =>
    match pad_or_truncate 0 max_length tr t, pad_or_truncate 0 max_length tr h,
        pad_or_truncate 0 max_length tr w with
    | some t', some h', some w' => some (PosIds.three t' h' w')
    | _, _, _ => none

/-- Modelled from the spec: `VF.postprocess_data` on the three tensors
(spec §4.4 step 6) — pad value is the tokenizer pad id for `input_ids`,
0 for `attention_mask`, 0 for `position_ids`. -/
def postprocess_data (max_length pad : Nat) (tr : Truncation) (ids mask : List Nat)
    (p : PosIds) : Option (List Nat × List Nat × PosIds) :=
  match pad_or_truncate pad max_length tr ids, pad_or_truncate 0 max_length tr mask,
      pad_or_truncate_pos max_length tr p with
  | some a, some b, some c => some (a, b, c)
  | _, _, _ => none

/-- Lines 215-222 (duplicated at 410-417): the second, independent
truncation decision on the unpadded `raw_prompt_ids`; `"error"` raises
`RuntimeError`. -/
def truncate_raw_prompt_ids (max_length : Nat) (tr : Truncation) (xs : List Nat) :
    Option (List Nat) :=
  if xs.length > max_length then
    match tr with
    | .left => some (xs.drop (xs.length - max_length))
    | .right => some (xs.take max_length)
    | .error => none
  else
    some xs

/-! ## `__getitem__` (lines 163-229, duplicated at 358-424) -/

/-- Lines 167-191: build the messages, take the image branch (lines
170-186) or the text branch (lines 188-191), producing the evolved record,
the rendered prompt string, the pre-padding `input_ids` and
`attention_mask`, and the optional grid descriptor. In the image branch the
image field is popped, every image is run through `process_image`, and
`multi_modal_data` is set to the original (pre-normalization) image
references. -/
def encode_phase (cfg : Config) (bk : Backend) (ex : Record) :
    Option (Record × String × List Nat × List Nat × Option Grid) :=
  match lookupRec ex cfg.prompt_key with
  | none => none
  | some pv =>
    match pv.asStr with
    | none => none
    | some ps =>
      if hasKey ex cfg.image_key then
        match popKey ex cfg.image_key with
        | none => none
        | some (iv, ex1) =>
          match iv.asImgs with
          | none => none
          | some refs =>
            match refs.mapM (fun r => process_image bk r cfg.min_pixels cfg.max_pixels) with
            | none => none
            | some images =>
              some (setKey ex1 "multi_modal_data" (Val.mm refs),
                bk.proc_apply_chat_template
                  (build_messages cfg.format_prompt (hasKey ex cfg.image_key) ps),
                (bk.proc_encode images (bk.proc_apply_chat_template
                  (build_messages cfg.format_prompt (hasKey ex cfg.image_key) ps))).1,
                (bk.proc_encode images (bk.proc_apply_chat_template
                  (build_messages cfg.format_prompt (hasKey ex cfg.image_key) ps))).2.1,
                (bk.proc_encode images (bk.proc_apply_chat_template
                  (build_messages cfg.format_prompt (hasKey ex cfg.image_key) ps))).2.2)
      else
        some (ex,
          bk.tok_apply_chat_template (build_messages cfg.format_prompt
            (hasKey ex cfg.image_key) ps),
          bk.tok_encode (bk.tok_apply_chat_template (build_messages cfg.format_prompt
            (hasKey ex cfg.image_key) ps)),
          List.replicate (bk.tok_encode (bk.tok_apply_chat_template
            (build_messages cfg.format_prompt (hasKey ex cfg.image_key) ps))).length 1,
          none)

/-- Lines 224-227: store the four tensors into the evolving record. -/
def assemble_tensors (ex1 : Record) (ids' mask' : List Nat) (pos' : PosIds) (raw : List Nat) :
    Record :=
  setKey (setKey (setKey (setKey ex1 "input_ids" (Val.ids ids'))
    "attention_mask" (Val.ids mask')) "position_ids" (Val.posv pos'))
    "raw_prompt_ids" (Val.ids raw)

/-- The shared `__getitem__` body acting on one fetched record (lines
163-229 and, identically, 358-424): encode, derive position ids,
postprocess to fixed length, compute and truncate `raw_prompt_ids`,
store the four tensors, and rename the answer field to `ground_truth`.
`none` models an uncaught Python exception. -/
def transform (cfg : Config) (bk : Backend) (ex : Record) : Option Record :=
  match encode_phase cfg bk ex with
  | none => none
  | some (ex1, prompt, ids, mask, grid) =>
    match postprocess_data cfg.max_prompt_length bk.pad_token_id cfg.truncation ids mask
        (derive_position_ids bk ids mask grid) with
    | none => none
    | some (ids', mask', pos') =>
      match truncate_raw_prompt_ids cfg.max_prompt_length cfg.truncation
          (bk.tok_encode prompt) with
      | none => none
      | some raw =>
        match popKey (assemble_tensors ex1 ids' mask' pos' raw) cfg.answer_key with
        | none => none
        | some (ans, ex3) => some (setKey ex3 "ground_truth" ans)

/-- `RLHFDataset.__getitem__` (line 164): the backing dataset library
materializes a fresh dict per index access, so the stored records are
untouched and each access is `transform` of the indexed record. -/
def rlhf_getitem (cfg : Config) (bk : Backend) (ds : List Record) (index : Nat) :
    Option Record :=
  match ds[index]? with
  | none => none
  | some ex => transform cfg bk ex

/-- `RLHFSelfDataset.__getitem__` (lines 358-424): the backing store is a
plain Python list, so line 359 aliases the stored dict and every mutation
of `example` (the pops and field writes of `transform`) lands in the
stored record. On success the returned example and the stored record are
the same dict, modelled by writing the result back at the index. On
failure the exception propagates (the partially mutated state is not
modelled). -/
def self_getitem (cfg : Config) (bk : Backend) (ds : List Record) (index : Nat) :
    Option (Record × List Record) :=
  match ds[index]? with
  | none => none
  | some ex =>
    match transform cfg bk ex with
    | none => none
    | some out => some (out, ds.set index out)

/-! ## Construction (lines 85-131 and 266-326) -/

/-- `_filter_overlong_prompts` (lines 153-158): keep a record when the
tokenized chat-template rendering of its messages (generation prompt
appended, via the processor when one is configured, else the tokenizer) has
length at most `max_prompt_length`. `none` models a Python error inside the
predicate (missing or non-string prompt field). -/
def filter_pred (cfg : Config) (bk : Backend) (ex : Record) : Option Bool :=
  match lookupRec ex cfg.prompt_key with
  | none => none
  | some pv =>
    match pv.asStr with
    | none => none
    | some ps =>
      let messages := build_messages cfg.format_prompt (hasKey ex cfg.image_key) ps
      let toks :=
        if bk.processor_some then bk.proc_apply_chat_template_tok messages
        else bk.tok_apply_chat_template_tok messages
      some (decide (toks.length ≤ cfg.max_prompt_length))

/-- `Dataset.filter` over a fallible predicate: keep the elements on which
the predicate yields `true`; fail when it fails on any element. -/
def filter_records (p : Record → Option Bool) : List Record → Option (List Record)
  | [] => some []
  | x :: xs =>
    match p x with
    | none => none
    | some b =>
      match filter_records p xs with
      | none => none
      | some rest => some (if b then x :: rest else rest)

/-- The filtering step of `RLHFDataset.__init__` (lines 130-131), applied
to the already-loaded record sequence (the path/remote resolution of lines
111-123 is the external dataset library): filter once at construction when
`filter_overlong_prompts` is set, otherwise keep the records as loaded. -/
def init_dataset (cfg : Config) (bk : Backend) (records : List Record) :
    Option (List Record) :=
  if cfg.filter_overlong_prompts then filter_records (filter_pred cfg bk) records
  else some records

/-- A scalar JSON value in the `answer` field of variant B's annotation
entries, coerced by `str(...)` on line 314. -/
inductive PyScalar where
  | s (v : String)
  | i (v : Int)
  deriving DecidableEq, Repr

/-- Python `str(...)` on the modelled scalars. -/
def PyScalar.toStr : PyScalar → String
  | .s v => v
  | .i v => toString v

/-- One entry of the JSON annotation array consumed by
`RLHFSelfDataset.__init__` (lines 307-316): `img_id`, `question`,
`answer`, and the opaque passthrough `location`. -/
structure AnnEntry where
  img_id : String
  question : String
  answer : PyScalar
  location : Nat
  deriving Repr

/-- POSIX `os.path.join` on two components (line 312): an absolute second
component wins; otherwise a separator is inserted unless the first
component is empty or already ends in one. -/
def os_path_join (a b : String) : String :=
  if b.data.head? = some '/' then b
  else if a = "" ∨ a.data.getLast? = some '/' then a ++ b
  else a ++ "/" ++ b

/-- The record built from one annotation entry (lines 310-316): the image
path is the image root joined with `img_id + "_origin.png"`, the problem is
the question prefixed with `"<image>"`, the answer is coerced to a string,
and `location` passes through. -/
def build_self_record (image_root : String) (e : AnnEntry) : Record :=
  [("images", Val.imgs [ImageRef.path (os_path_join image_root (e.img_id ++ "_origin.png"))]),
   ("problem", Val.str ("<image>" ++ e.question)),
   ("answer", Val.str e.answer.toStr),
   ("location", Val.obj e.location)]

/-- `RLHFSelfDataset.__init__` (lines 307-326): map every parsed annotation
entry to a record; the overlong-prompt filter call is commented out
(lines 325-326), so nothing is dropped. -/
def init_self_dataset (image_root : String) (anns : List AnnEntry) : List Record :=
  anns.map (build_self_record image_root)

/-! ## Concrete instances used to evaluate the model on closed inputs -/

/-- A concrete text-only configuration (scenario A of the spec:
`max_prompt_length = 8`). -/
def cfgW : Config :=
  { prompt_key := "prompt", answer_key := "answer", image_key := "images",
    max_prompt_length := 8, truncation := Truncation.error, format_prompt := none,
    max_pixels := some 300, min_pixels := some 10, filter_overlong_prompts := true }

/-- A concrete backend: the chat template renders to `"2+2="`, which encodes
to the 4 ids `[1, 2, 3, 4]`; pad id 0; no multimodal rotary processor. -/
def bkW : Backend :=
  { pad_token_id := 0,
    decode_image := fun _ => { width := 5, height := 5, mode := "L" },
    tok_apply_chat_template := fun _ => "2+2=",
    tok_apply_chat_template_tok := fun m =>
      match m with
      | [{ role := _, content := MsgContent.str s }] => List.replicate s.length 1
      | _ => [],
    proc_apply_chat_template := fun _ => "P",
    proc_apply_chat_template_tok := fun _ => [],
    tok_encode := fun s => (List.range s.length).map (fun i => i + 1),
    proc_encode := fun _ _ => ([5, 6, 7], [1, 1, 1], none),
    processor_some := false,
    is_qwen2_vl_image_processor := false,
    get_rope_index := fun ids _ mask => (ids, mask, ids) }

/-- A concrete text-only record. -/
def exW : Record :=
  [("prompt", Val.str "2+2="), ("answer", Val.str "4"), ("location", Val.obj 7)]

/-- The transformed concrete record. -/
def outW : Record :=
  (transform cfgW bkW exW).getD []

/-- A concrete variant-B configuration (the keys variant B's constructor
produces). -/
def cfgB : Config :=
  { prompt_key := "problem", answer_key := "answer", image_key := "images",
    max_prompt_length := 8, truncation := Truncation.right, format_prompt := none,
    max_pixels := some 300, min_pixels := some 10, filter_overlong_prompts := true }

/-- A concrete variant-B annotation entry. -/
def annB : AnnEntry :=
  { img_id := "img1", question := "what?", answer := PyScalar.i 0, location := 3 }

/-- The record variant B's constructor builds from `annB`. -/
def recB : Record :=
  build_self_record "/data" annB

/-- The variant-B backing store holding the one record. -/
def dsB : List Record :=
  [recB]

/-- The record produced (and, by aliasing, stored back) by the first
variant-B access. -/
def outB : Record :=
  (transform cfgB bkW recB).getD []

/-- A concrete filtering configuration (`max_prompt_length = 4`). -/
def cfg6 : Config :=
  { prompt_key := "prompt", answer_key := "answer", image_key := "images",
    max_prompt_length := 4, truncation := Truncation.error, format_prompt := none,
    max_pixels := some 300, min_pixels := some 10, filter_overlong_prompts := true }

/-- A record kept by the filter (its rendered prompt tokenizes to 2 ids
under `bkW`). -/
def exS6 : Record :=
  [("prompt", Val.str "ab"), ("answer", Val.str "x")]

/-- A record dropped by the filter (its rendered prompt tokenizes to 8 ids
under `bkW`). -/
def exL6 : Record :=
  [("prompt", Val.str "abcdefgh"), ("answer", Val.str "y")]

/-- The two-record sequence fed to the variant-A constructor. -/
def recs6 : List Record :=
  [exL6, exS6]

/-- What construction-time filtering leaves of `recs6`. -/
def r6 : List Record :=
  [exS6]

/-- A configuration leaving the pixel bounds at their constructor defaults
(`None`). -/
def cfgN : Config :=
  { prompt_key := "problem", answer_key := "answer", image_key := "images",
    max_prompt_length := 8, truncation := Truncation.right, format_prompt := none,
    max_pixels := none, min_pixels := none, filter_overlong_prompts := true }

/-- A concrete image-bearing record. -/
def exN : Record :=
  [("problem", Val.str "<image>q"), ("images", Val.imgs [ImageRef.path "x"]),
   ("answer", Val.str "1")]

/-! ## Record-operation lemmas -/

theorem lookup_setKey_self (r : Record) (k : String) (v : Val) :
    lookupRec (setKey r k v) k = some v := by
  induction r with
  | nil => simp [setKey, lookupRec]
  | cons hd rest ih =>
    obtain ⟨k0, v0⟩ := hd
    by_cases h : k0 = k
    · simp [setKey, h, lookupRec]
    · simp [setKey, h, lookupRec, ih]

theorem lookup_setKey_ne (r : Record) (k' k : String) (v : Val) (h : k' ≠ k) :
    lookupRec (setKey r k' v) k = lookupRec r k := by
  induction r with
  | nil => simp [setKey, lookupRec, h]
  | cons hd rest ih =>
    obtain ⟨k0, v0⟩ := hd
    by_cases hk : k0 = k'
    · subst hk
      simp only [setKey, if_pos rfl, lookupRec, if_neg h]
    · simp only [setKey, if_neg hk, lookupRec]
      by_cases h0 : k0 = k
      · simp [h0]
      · simp [h0, ih]

theorem lookup_erase_self (r : Record) (k : String) :
    lookupRec (eraseKey r k) k = none := by
  induction r with
  | nil => rfl
  | cons hd rest ih =>
    obtain ⟨k0, v0⟩ := hd
    by_cases hk : k0 = k
    · simpa [eraseKey, hk] using ih
    · simpa [eraseKey, hk, lookupRec] using ih

theorem lookup_erase_ne (r : Record) (k' k : String) (h : k' ≠ k) :
    lookupRec (eraseKey r k') k = lookupRec r k := by
  induction r with
  | nil => rfl
  | cons hd rest ih =>
    obtain ⟨k0, v0⟩ := hd
    by_cases hk : k0 = k'
    · have h0 : ¬k0 = k := by rw [hk]; exact h
      simp only [eraseKey, if_pos hk, lookupRec, if_neg h0]
      exact ih
    · simp only [eraseKey, if_neg hk, lookupRec]
      by_cases h0 : k0 = k
      · simp [h0]
      · simp [h0, ih]

theorem popKey_inv {r : Record} {k : String} {v : Val} {r' : Record}
    (h : popKey r k = some (v, r')) :
    lookupRec r k = some v ∧ r' = eraseKey r k := by
  unfold popKey at h
  cases hl : lookupRec r k with
  | none => rw [hl] at h; exact absurd h (by simp)
  | some w =>
    rw [hl] at h
    simp only [Option.some.injEq, Prod.mk.injEq] at h
    exact ⟨by rw [h.1], h.2.symm⟩

/-! ## Padding and truncation lemmas -/

theorem pad_or_truncate_length {pad L : Nat} {tr : Truncation} {xs ys : List Nat}
    (h : pad_or_truncate pad L tr xs = some ys) : ys.length = L := by
  unfold pad_or_truncate at h
  by_cases hle : xs.length ≤ L
  · simp only [hle, if_pos] at h
    cases h
    simp [List.length_append, List.length_replicate]
    omega
  · simp only [hle, if_neg, not_false_iff] at h
    cases tr with
    | left => cases h; simp [List.length_drop]; omega
    | right => cases h; simp [List.length_take]; omega
    | error => exact absurd h (by simp)

theorem pad_or_truncate_of_le {pad L : Nat} {tr : Truncation} {xs : List Nat}
    (h : xs.length ≤ L) :
    pad_or_truncate pad L tr xs = some (List.replicate (L - xs.length) pad ++ xs) := by
  unfold pad_or_truncate
  simp [h]

theorem pad_or_truncate_pos_inv {L : Nat} {tr : Truncation} {p q : PosIds}
    (h : pad_or_truncate_pos L tr p = some q) :
    q.isThree = p.isThree ∧ ∀ row ∈ q.rows, row.length = L := by
  cases p with
  | one u =>
    simp only [pad_or_truncate_pos] at h
    cases hu : pad_or_truncate 0 L tr u with
    | none => rw [hu] at h; exact absurd h (by simp)
    | some u' =>
      rw [hu] at h
      cases h
      refine ⟨rfl, ?_⟩
      intro row hrow
      simp only [PosIds.rows, List.mem_cons, List.not_mem_nil, or_false] at hrow
      rw [hrow]
      exact pad_or_truncate_length hu
  | three t h3 w =>
    simp only [pad_or_truncate_pos] at h
    cases ht : pad_or_truncate 0 L tr t with
    | none => rw [ht] at h; exact absurd h (by simp)
    | some t' =>
      cases hh : pad_or_truncate 0 L tr h3 with
      | none => rw [ht, hh] at h; exact absurd h (by simp)
      | some h' =>
        cases hw : pad_or_truncate 0 L tr w with
        | none => rw [ht, hh, hw] at h; exact absurd h (by simp)
        | some w' =>
          rw [ht, hh, hw] at h
          cases h
          refine ⟨rfl, ?_⟩
          intro row hrow
          simp only [PosIds.rows, List.mem_cons, List.not_mem_nil, or_false] at hrow
          rcases hrow with rfl | rfl | rfl
          · exact pad_or_truncate_length ht
          · exact pad_or_truncate_length hh
          · exact pad_or_truncate_length hw

theorem postprocess_data_inv {L pad : Nat} {tr : Truncation} {ids mask : List Nat}
    {p : PosIds} {ids' mask' : List Nat} {p' : PosIds}
    (h : postprocess_data L pad tr ids mask p = some (ids', mask', p')) :
    pad_or_truncate pad L tr ids = some ids' ∧
    pad_or_truncate 0 L tr mask = some mask' ∧
    pad_or_truncate_pos L tr p = some p' := by
  unfold postprocess_data at h
  cases h1 : pad_or_truncate pad L tr ids with
  | none => rw [h1] at h; exact absurd h (by simp)
  | some a =>
    cases h2 : pad_or_truncate 0 L tr mask with
    | none => rw [h1, h2] at h; exact absurd h (by simp)
    | some b =>
      cases h3 : pad_or_truncate_pos L tr p with
      | none => rw [h1, h2, h3] at h; exact absurd h (by simp)
      | some c =>
        rw [h1, h2, h3] at h
        simp only [Option.some.injEq, Prod.mk.injEq] at h
        exact ⟨by rw [h.1], by rw [h.2.1], by rw [h.2.2]⟩

theorem truncate_raw_length {L : Nat} {tr : Truncation} {xs ys : List Nat}
    (h : truncate_raw_prompt_ids L tr xs = some ys) : ys.length ≤ L := by
  unfold truncate_raw_prompt_ids at h
  by_cases hgt : xs.length > L
  · simp only [hgt, if_pos] at h
    cases tr with
    | left => cases h; simp [List.length_drop]; omega
    | right => cases h; simp [List.length_take]
    | error => exact absurd h (by simp)
  · simp only [hgt, if_neg, not_false_iff] at h
    cases h
    omega

/-! ## Cumulative-sum lemmas -/

theorem cumsum_from_replicate_one (a n : Nat) :
    cumsum_from a (List.replicate n 1) = (List.range n).map (fun i => a + i + 1) := by
  induction n generalizing a with
  | zero => simp [cumsum_from]
  | succ m ih =>
    rw [List.replicate_succ, List.range_succ_eq_map]
    simp only [cumsum_from, ih (a + 1), List.map_cons, List.map_map]
    refine List.cons_eq_cons.mpr ⟨by simp, ?_⟩
    apply List.map_congr_left
    intro i _
    simp only [Function.comp_apply]
    omega

theorem pos_from_mask_ones (n : Nat) :
    pos_from_mask (List.replicate n 1) = List.range n := by
  unfold pos_from_mask
  rw [cumsum_from_replicate_one, List.map_map]
  have : ((fun s => s - 1) ∘ fun i => 0 + i + 1) = id := by
    funext i; simp
  rw [this, List.map_id]

/-! ## Filtering lemmas -/

theorem filter_records_mem {p : Record → Option Bool} {l r : List Record}
    (h : filter_records p l = some r) (x : Record) :
    x ∈ r ↔ x ∈ l ∧ p x = some true := by
  induction l generalizing r with
  | nil =>
    unfold filter_records at h
    cases h
    simp
  | cons y ys ih =>
    unfold filter_records at h
    cases hy : p y with
    | none => rw [hy] at h; exact absurd h (by simp)
    | some b =>
      rw [hy] at h
      cases hrest : filter_records p ys with
      | none => rw [hrest] at h; exact absurd h (by simp)
      | some rest =>
        rw [hrest] at h
        have hr : r = if b then y :: rest else rest := by
          injection h with h
          exact h.symm
        subst hr
        cases b with
        | true =>
          rw [if_pos rfl, List.mem_cons, ih hrest, List.mem_cons]
          constructor
          · rintro (rfl | ⟨hx, hpx⟩)
            · exact ⟨Or.inl rfl, hy⟩
            · exact ⟨Or.inr hx, hpx⟩
          · rintro ⟨rfl | hx, hpx⟩
            · exact Or.inl rfl
            · exact Or.inr ⟨hx, hpx⟩
        | false =>
          rw [if_neg (by simp), ih hrest, List.mem_cons]
          constructor
          · rintro ⟨hx, hpx⟩
            exact ⟨Or.inr hx, hpx⟩
          · rintro ⟨rfl | hx, hpx⟩
            · rw [hy] at hpx
              exact absurd hpx (by simp)
            · exact ⟨hx, hpx⟩

theorem filter_records_all_some {p : Record → Option Bool} {l r : List Record}
    (h : filter_records p l = some r) :
    ∀ x ∈ l, ∃ b, p x = some b := by
  induction l generalizing r with
  | nil => intro x hx; exact absurd hx (by simp)
  | cons y ys ih =>
    unfold filter_records at h
    cases hy : p y with
    | none => rw [hy] at h; exact absurd h (by simp)
    | some b =>
      rw [hy] at h
      cases hrest : filter_records p ys with
      | none => rw [hrest] at h; exact absurd h (by simp)
      | some rest =>
        intro x hx
        rcases List.mem_cons.mp hx with hx | hx
        · exact ⟨b, by rw [hx, hy]⟩
        · exact ih hrest x hx

/-! ## Pipeline inversion lemmas -/

theorem derive_position_ids_isThree (bk : Backend) (ids mask : List Nat) (grid : Option Grid) :
    (derive_position_ids bk ids mask grid).isThree = bk.is_qwen2_vl_image_processor := by
  unfold derive_position_ids
  cases hq : bk.is_qwen2_vl_image_processor with
  | false => simp [PosIds.isThree]
  | true => simp [PosIds.isThree]

theorem encode_phase_inv {cfg : Config} {bk : Backend} {ex ex1 : Record} {prompt : String}
    {ids mask : List Nat} {grid : Option Grid}
    (h : encode_phase cfg bk ex = some (ex1, prompt, ids, mask, grid)) :
    ∃ ps, lookupRec ex cfg.prompt_key = some (Val.str ps) ∧
      ((hasKey ex cfg.image_key = false ∧ ex1 = ex ∧
        prompt = bk.tok_apply_chat_template (build_messages cfg.format_prompt false ps) ∧
        ids = bk.tok_encode prompt ∧ mask = List.replicate ids.length 1 ∧ grid = none) ∨
       (hasKey ex cfg.image_key = true ∧ ∃ refs images,
        lookupRec ex cfg.image_key = some (Val.imgs refs) ∧
        List.mapM (fun r => process_image bk r cfg.min_pixels cfg.max_pixels) refs =
          some images ∧
        prompt = bk.proc_apply_chat_template (build_messages cfg.format_prompt true ps) ∧
        (ids, mask, grid) = bk.proc_encode images prompt ∧
        ex1 = setKey (eraseKey ex cfg.image_key) "multi_modal_data" (Val.mm refs))) := by
  cases hl : lookupRec ex cfg.prompt_key with
  | none =>
    simp only [encode_phase, hl] at h
    exact absurd h (by simp)
  | some pv =>
    cases hs : pv.asStr with
    | none =>
      simp only [encode_phase, hl, hs] at h
      exact absurd h (by simp)
    | some ps =>
      have hps : pv = Val.str ps := by
        cases pv <;> simp [Val.asStr] at hs <;> rw [hs]
      refine ⟨ps, by rw [hps], ?_⟩
      cases hk : hasKey ex cfg.image_key with
      | false =>
        simp only [encode_phase, hl, hs, hk, Bool.false_eq_true, if_false,
          Option.some.injEq, Prod.mk.injEq] at h
        obtain ⟨h1, h2, h3, h4, h5⟩ := h
        left
        exact ⟨rfl, h1.symm, h2.symm, by rw [← h3, h2], by rw [← h4, ← h3], h5.symm⟩
      | true =>
        cases hpop : popKey ex cfg.image_key with
        | none =>
          simp only [encode_phase, hl, hs, hk, if_true, hpop] at h
          exact absurd h (by simp)
        | some pr =>
          obtain ⟨iv, ex1'⟩ := pr
          cases hiv : iv.asImgs with
          | none =>
            simp only [encode_phase, hl, hs, hk, if_true, hpop, hiv] at h
            exact absurd h (by simp)
          | some refs =>
            cases hmap : List.mapM
                (fun r => process_image bk r cfg.min_pixels cfg.max_pixels) refs with
            | none =>
              simp only [encode_phase, hl, hs, hk, if_true, hpop, hiv, hmap] at h
              exact absurd h (by simp)
            | some images =>
              simp only [encode_phase, hl, hs, hk, hpop, hiv, hmap, if_true,
                Option.some.injEq, Prod.mk.injEq] at h
              obtain ⟨hrefs, hex1'⟩ := popKey_inv hpop
              have hivv : iv = Val.imgs refs := by
                cases iv <;> simp [Val.asImgs] at hiv <;> rw [hiv]
              obtain ⟨h1, h2, h3, h4, h5⟩ := h
              right
              refine ⟨rfl, refs, images, by rw [hrefs, hivv], hmap, h2.symm, ?_, ?_⟩
              · rw [← h3, ← h4, ← h5, ← h2]
              · rw [← h1, hex1']

theorem transform_inv {cfg : Config} {bk : Backend} {ex out : Record}
    (h : transform cfg bk ex = some out) :
    ∃ ex1 prompt ids mask grid ids' mask' pos' raw ans,
      encode_phase cfg bk ex = some (ex1, prompt, ids, mask, grid) ∧
      postprocess_data cfg.max_prompt_length bk.pad_token_id cfg.truncation ids mask
        (derive_position_ids bk ids mask grid) = some (ids', mask', pos') ∧
      truncate_raw_prompt_ids cfg.max_prompt_length cfg.truncation (bk.tok_encode prompt) =
        some raw ∧
      lookupRec (assemble_tensors ex1 ids' mask' pos' raw) cfg.answer_key = some ans ∧
      out = setKey (eraseKey (assemble_tensors ex1 ids' mask' pos' raw) cfg.answer_key)
        "ground_truth" ans := by
  cases he : encode_phase cfg bk ex with
  | none => simp [transform, he] at h
  | some tup =>
    obtain ⟨ex1, prompt, ids, mask, grid⟩ := tup
    cases hp : postprocess_data cfg.max_prompt_length bk.pad_token_id cfg.truncation ids mask
        (derive_position_ids bk ids mask grid) with
    | none => simp [transform, he, hp] at h
    | some tup2 =>
      obtain ⟨ids', mask', pos'⟩ := tup2
      cases hr : truncate_raw_prompt_ids cfg.max_prompt_length cfg.truncation
          (bk.tok_encode prompt) with
      | none => simp [transform, he, hp, hr] at h
      | some raw =>
        cases hpop : popKey (assemble_tensors ex1 ids' mask' pos' raw) cfg.answer_key with
        | none => simp [transform, he, hp, hr, hpop] at h
        | some pr =>
          obtain ⟨ans, ex3⟩ := pr
          simp only [transform, he, hp, hr, hpop, Option.some.injEq] at h
          obtain ⟨hl, hex3⟩ := popKey_inv hpop
          exact ⟨ex1, prompt, ids, mask, grid, ids', mask', pos', raw, ans, rfl, hp, hr, hl,
            by rw [← h, hex3]⟩

/-! ## Message-builder lemmas -/

theorem content_parts_pos (l : List String) (i : Nat) (hi : i ≠ 0) :
    content_parts i l =
      (l.map (fun s =>
        ContentPart.image :: (if s ≠ "" then [ContentPart.text s] else []))).flatten := by
  induction l generalizing i with
  | nil => simp [content_parts]
  | cons c rest ih =>
    simp only [content_parts, if_pos hi, List.map_cons, List.flatten_cons]
    rw [ih (i + 1) (by omega)]
    simp

theorem content_parts_zero (l : List String) :
    content_parts 0 l = spec_content_parts l := by
  cases l with
  | nil => rfl
  | cons s0 rest =>
    simp only [content_parts, spec_content_parts,
      if_neg (by simp : ¬(0 : Nat) ≠ 0)]
    rw [content_parts_pos rest 1 (by omega)]
    simp

theorem count_image_flatten (rest : List String) :
    (((rest.map (fun s =>
        ContentPart.image :: (if s ≠ "" then [ContentPart.text s] else []))).flatten).filter
      ContentPart.isImage).length = rest.length := by
  induction rest with
  | nil => rfl
  | cons s t ih =>
    simp only [List.map_cons, List.flatten_cons, List.filter_append, List.length_append,
      List.length_cons, ih]
    have h1 : ((ContentPart.image ::
        (if s ≠ "" then [ContentPart.text s] else [])).filter ContentPart.isImage).length = 1 := by
      split <;> simp [ContentPart.isImage, List.filter]
    omega

theorem count_image_spec (l : List String) :
    ((spec_content_parts l).filter ContentPart.isImage).length = l.length - 1 := by
  cases l with
  | nil => rfl
  | cons s0 rest =>
    simp only [spec_content_parts, List.filter_append, List.length_append]
    have h1 : ((if s0 ≠ "" then [ContentPart.text s0] else []).filter
        ContentPart.isImage).length = 0 := by
      split <;> simp [ContentPart.isImage, List.filter]
    rw [h1, count_image_flatten]
    simp

/-! ## Resize arithmetic lemmas -/

theorem resize_dims_le (w h t : Nat) (hc : 0 < w * h) :
    (resize_dims w h t).1 * (resize_dims w h t).2 ≤ t := by
  unfold resize_dims
  simp only
  set w' := Nat.sqrt (w * w * t / (w * h)) with hw'
  set h' := Nat.sqrt (h * h * t / (w * h)) with hh'
  have hw : w' * w' * (w * h) ≤ w * w * t :=
    le_trans (Nat.mul_le_mul_right (w * h) (Nat.sqrt_le _)) (Nat.div_mul_le_self _ _)
  have hh : h' * h' * (w * h) ≤ h * h * t :=
    le_trans (Nat.mul_le_mul_right (w * h) (Nat.sqrt_le _)) (Nat.div_mul_le_self _ _)
  by_contra hlt
  push_neg at hlt
  have h1 : t + 1 ≤ w' * h' := hlt
  have h2 : (w' * w' * (w * h)) * (h' * h' * (w * h)) ≤ (w * w * t) * (h * h * t) :=
    Nat.mul_le_mul hw hh
  have h3 : (t + 1) * (t + 1) ≤ (w' * h') * (w' * h') := Nat.mul_le_mul h1 h1
  have h3' := Nat.mul_le_mul_right ((w * h) * (w * h)) h3
  have hpos : 0 < (w * h) * (w * h) := Nat.mul_pos hc hc
  have h5 : (t + 1) * (t + 1) ≤ t * t := by
    apply Nat.le_of_mul_le_mul_right _ hpos
    calc (t + 1) * (t + 1) * ((w * h) * (w * h))
        ≤ (w' * h') * (w' * h') * ((w * h) * (w * h)) := h3'
      _ = (w' * w' * (w * h)) * (h' * h' * (w * h)) := by ring
      _ ≤ (w * w * t) * (h * h * t) := h2
      _ = t * t * ((w * h) * (w * h)) := by ring
  nlinarith [h5]

theorem resize_dims_gt (w h t : Nat) (hc : 0 < w * h) :
    t < ((resize_dims w h t).1 + 1) * ((resize_dims w h t).2 + 1) := by
  unfold resize_dims
  simp only
  set w' := Nat.sqrt (w * w * t / (w * h)) with hw'
  set h' := Nat.sqrt (h * h * t / (w * h)) with hh'
  have hw : w * w * t < (w' + 1) * (w' + 1) * (w * h) :=
    (Nat.div_lt_iff_lt_mul hc).mp (Nat.lt_succ_sqrt _)
  have hh : h * h * t < (h' + 1) * (h' + 1) * (w * h) :=
    (Nat.div_lt_iff_lt_mul hc).mp (Nat.lt_succ_sqrt _)
  by_contra hle
  push_neg at hle
  have h2 : (w * w * t) * (h * h * t) <
      ((w' + 1) * (w' + 1) * (w * h)) * ((h' + 1) * (h' + 1) * (w * h)) :=
    Nat.mul_lt_mul_of_lt_of_lt hw hh
  have h3 : ((w' + 1) * (h' + 1)) * ((w' + 1) * (h' + 1)) ≤ t * t := Nat.mul_le_mul hle hle
  have h3' := Nat.mul_le_mul_right ((w * h) * (w * h)) h3
  nlinarith [h2, h3']

/-! ## Image-normalization lemmas -/

theorem rgb_convert_spec (i : PImage) :
    (rgb_convert i).mode = "RGB" ∧ (rgb_convert i).width = i.width ∧
      (rgb_convert i).height = i.height := by
  unfold rgb_convert
  split
  next hm => exact ⟨hm, rfl, rfl⟩
  next hm => exact ⟨rfl, rfl, rfl⟩

theorem downscale_step_le (img : PImage) (maxP : Nat) :
    (downscale_step img maxP).width * (downscale_step img maxP).height ≤ maxP := by
  unfold downscale_step
  split
  next hgt => exact resize_dims_le _ _ _ (by omega)
  next hgt => omega

theorem upscale_step_bounds {img1 img2 : PImage} {minP maxP : Nat}
    (hub : img1.width * img1.height ≤ maxP) (hmm : minP ≤ maxP)
    (h : upscale_step img1 minP = some img2) :
    img2.width * img2.height ≤ maxP ∧
      minP < (img2.width + 1) * (img2.height + 1) ∧ img2.mode = img1.mode := by
  unfold upscale_step at h
  by_cases hlt : img1.width * img1.height < minP
  · rw [if_pos hlt] at h
    by_cases h0 : img1.width * img1.height = 0
    · rw [if_pos h0] at h
      exact absurd h (by simp)
    · rw [if_neg h0] at h
      injection h with h
      subst h
      refine ⟨le_trans (resize_dims_le _ _ _ (by omega)) hmm, ?_, rfl⟩
      exact resize_dims_gt _ _ _ (by omega)
  · rw [if_neg hlt] at h
    injection h with h
    subst h
    push_neg at hlt
    exact ⟨hub, by nlinarith [hlt], rfl⟩

theorem normalize_image_bounds {img0 img : PImage} {minP maxP : Nat} (hmm : minP ≤ maxP)
    (h : normalize_image img0 (some minP) (some maxP) = some img) :
    img.mode = "RGB" ∧ img.width * img.height ≤ maxP ∧
      minP < (img.width + 1) * (img.height + 1) := by
  simp only [normalize_image] at h
  cases hu : upscale_step (downscale_step img0 maxP) minP with
  | none => rw [hu] at h; exact absurd h (by simp)
  | some img2 =>
    rw [hu] at h
    injection h with h
    subst h
    obtain ⟨hb1, hb2, _⟩ := upscale_step_bounds (downscale_step_le img0 maxP) hmm hu
    obtain ⟨hc1, hc2, hc3⟩ := rgb_convert_spec img2
    exact ⟨hc1, by rw [hc2, hc3]; exact hb1, by rw [hc2, hc3]; exact hb2⟩

/-! ## Claim theorems -/

/-- Claim C4: for every record, `_build_messages` returns exactly one user-role
message; with no image field its content is the (optionally templated)
prompt string verbatim; with an image field the content is exactly the
spec's split-interleaving of the effective prompt on the `"<image>"`
marker (a text part for segment 0 if non-empty, then per subsequent
segment an image part followed by a text part if non-empty), with exactly
as many image parts as marker occurrences (`splitOn` yields one segment
more than the number of occurrences). -/
theorem c4_build_messages_structure (fmt : Option (String → String)) (p : String) :
    (∀ b, (build_messages fmt b p).length = 1) ∧
    (∀ b m, m ∈ build_messages fmt b p → m.role = "user") ∧
    build_messages fmt false p =
      [{ role := "user", content := MsgContent.str (render_prompt fmt p) }] ∧
    build_messages fmt true p =
      [{ role := "user", content := MsgContent.parts
          (spec_content_parts ((render_prompt fmt p).splitOn "<image>")) }] ∧
    ((spec_content_parts ((render_prompt fmt p).splitOn "<image>")).filter
        ContentPart.isImage).length =
      ((render_prompt fmt p).splitOn "<image>").length - 1 := by
  refine ⟨?_, ?_, ?_, ?_, count_image_spec _⟩
  · intro b
    cases b <;> simp [build_messages]
  · intro b m hm
    cases b <;> simp [build_messages] at hm <;> (subst hm; rfl)
  · simp [build_messages]
  · simp [build_messages, content_parts_zero]

/-- Witness for C4 at a concrete prompt holding two markers. -/
theorem c4_witness :
    build_messages none true "a<image>b<image>" =
      [{ role := "user", content := MsgContent.parts
          (spec_content_parts (("a<image>b<image>" : String).splitOn "<image>")) }] ∧
    ((spec_content_parts (("a<image>b<image>" : String).splitOn "<image>")).filter
        ContentPart.isImage).length =
      (("a<image>b<image>" : String).splitOn "<image>").length - 1 := by
  have h := c4_build_messages_structure none "a<image>b<image>"
  exact ⟨h.2.2.2.1, h.2.2.2.2⟩

/-- Claim C7: for every image reference accepted by `process_image` and integer
thresholds with `min_pixels ≤ max_pixels`, a successfully returned image is
RGB and its pixel count is at most `max_pixels` exactly and at least
`min_pixels` within integer-truncation tolerance (the bound holds for the
un-truncated dimensions: `min_pixels < (width+1) * (height+1)`); the
downscale branch runs before the upscale branch. -/
theorem c7_process_image_bounds (bk : Backend) (r : ImageRef) (minP maxP : Nat)
    (img : PImage) (hmm : minP ≤ maxP)
    (h : process_image bk r (some minP) (some maxP) = some img) :
    img.mode = "RGB" ∧ img.width * img.height ≤ maxP ∧
      minP < (img.width + 1) * (img.height + 1) := by
  simp only [process_image] at h
  exact normalize_image_bounds hmm h

/-- Witness for C7 at a concrete decoded 5-by-5 non-RGB image with bounds
10 and 300. -/
theorem c7_witness :
    ({ width := 5, height := 5, mode := "RGB" } : PImage).mode = "RGB" ∧
    ({ width := 5, height := 5, mode := "RGB" } : PImage).width *
      ({ width := 5, height := 5, mode := "RGB" } : PImage).height ≤ 300 ∧
    10 < (({ width := 5, height := 5, mode := "RGB" } : PImage).width + 1) *
      (({ width := 5, height := 5, mode := "RGB" } : PImage).height + 1) :=
  c7_process_image_bounds bkW (ImageRef.path "x") 10 300
    { width := 5, height := 5, mode := "RGB" } (by decide) (by decide)

/-- Claim C8: variant B's constructor maps every annotation entry to a record
whose single image path joins the image root with `img_id + "_origin.png"`,
whose prompt is the question prefixed with `"<image>"`, whose answer is
coerced to a string, and whose location passes through; nothing is
filtered, so the length equals the number of entries. -/
theorem c8_self_dataset_construction (root : String) (anns : List AnnEntry) :
    (init_self_dataset root anns).length = anns.length ∧
    ∀ (i : Nat) (e : AnnEntry), anns[i]? = some e →
      (init_self_dataset root anns)[i]? = some (build_self_record root e) ∧
      lookupRec (build_self_record root e) "images" =
        some (Val.imgs [ImageRef.path (os_path_join root (e.img_id ++ "_origin.png"))]) ∧
      lookupRec (build_self_record root e) "problem" =
        some (Val.str ("<image>" ++ e.question)) ∧
      lookupRec (build_self_record root e) "answer" = some (Val.str e.answer.toStr) ∧
      lookupRec (build_self_record root e) "location" = some (Val.obj e.location) := by
  refine ⟨by simp [init_self_dataset], ?_⟩
  intro i e he
  refine ⟨?_, rfl, rfl, rfl, rfl⟩
  simp [init_self_dataset, List.getElem?_map, he]

/-- Witness for C8 at a concrete one-entry annotation list. -/
theorem c8_witness :
    (init_self_dataset "/data" [annB]).length = 1 ∧
    (init_self_dataset "/data" [annB])[0]? = some (build_self_record "/data" annB) ∧
    lookupRec (build_self_record "/data" annB) "images" =
      some (Val.imgs [ImageRef.path (os_path_join "/data" (annB.img_id ++ "_origin.png"))]) ∧
    lookupRec (build_self_record "/data" annB) "answer" =
      some (Val.str annB.answer.toStr) := by
  have h := c8_self_dataset_construction "/data" [annB]
  have h2 := h.2 0 annB rfl
  exact ⟨h.1, h2.1, h2.2.1, h2.2.2.2.1⟩

/-- Claim C10: `process_image` requires both pixel bounds to be integers: with
either bound left at the constructors' `None` default the pixel-count
comparison fails, so transforming any record bearing at least one image
fails rather than skipping resizing. -/
theorem c10_pixel_bounds_required (cfg : Config) (bk : Backend) (ex : Record)
    (refs : List ImageRef)
    (hdef : cfg.min_pixels = none ∨ cfg.max_pixels = none)
    (himg : lookupRec ex cfg.image_key = some (Val.imgs refs))
    (hne : refs ≠ []) :
    transform cfg bk ex = none ∧
    (∀ (r : ImageRef) (minP maxP : Option Nat), minP = none ∨ maxP = none →
      process_image bk r minP maxP = none) ∧
    ({} : Config).min_pixels = none ∧ ({} : Config).max_pixels = none := by
  have hgen : ∀ (r : ImageRef) (minP maxP : Option Nat), minP = none ∨ maxP = none →
      process_image bk r minP maxP = none := by
    intro r mp xp hd
    rcases hd with rfl | rfl
    · cases xp with
      | none => rfl
      | some m => rfl
    · rfl
  refine ⟨?_, hgen, rfl, rfl⟩
  cases ht : transform cfg bk ex with
  | none => rfl
  | some out =>
    exfalso
    obtain ⟨ex1, prompt, ids, mask, grid, ids', mask', pos', raw, ans, he, _, _, _, _⟩ :=
      transform_inv ht
    obtain ⟨ps, hps, hbranch⟩ := encode_phase_inv he
    rcases hbranch with ⟨hk, _⟩ | ⟨hk, refs', images, hrefs, hmap, _⟩
    · rw [hasKey, himg] at hk
      simp at hk
    · rw [himg] at hrefs
      injection hrefs with hrefs
      injection hrefs with hrefs
      subst hrefs
      cases refs with
      | nil => exact hne rfl
      | cons x xs =>
        rw [List.mapM_cons, hgen x cfg.min_pixels cfg.max_pixels hdef] at hmap
        simp at hmap

/-- Witness for C10 at a concrete image-bearing record under the default
(`None`) pixel bounds. -/
theorem c10_witness :
    transform cfgN bkW exN = none ∧
    process_image bkW (ImageRef.path "x") none none = none := by
  have h := c10_pixel_bounds_required cfgN bkW exN [ImageRef.path "x"]
    (Or.inl rfl) (by decide) (by decide)
  exact ⟨h.1, h.2.1 (ImageRef.path "x") none none (Or.inl rfl)⟩

/-- Claim C1: every successfully transformed record carries `input_ids`,
`attention_mask` and `position_ids` of last-axis length exactly
`max_prompt_length`, with `position_ids` keeping its 1-axis-vs-3-axis
shape (3-axis exactly for the multimodal rotary backend), and the padding
routine left-pads shorter sequences at the front with the given pad value
(the tokenizer pad id for `input_ids`, 0 for the mask and positions). -/
theorem c1_padded_tensor_shapes (cfg : Config) (bk : Backend) (ex out : Record)
    (ha1 : cfg.answer_key ≠ "input_ids") (ha2 : cfg.answer_key ≠ "attention_mask")
    (ha3 : cfg.answer_key ≠ "position_ids")
    (h : transform cfg bk ex = some out) :
    (∃ ids, lookupRec out "input_ids" = some (Val.ids ids) ∧
      ids.length = cfg.max_prompt_length) ∧
    (∃ mask, lookupRec out "attention_mask" = some (Val.ids mask) ∧
      mask.length = cfg.max_prompt_length) ∧
    (∃ pos, lookupRec out "position_ids" = some (Val.posv pos) ∧
      (∀ row ∈ pos.rows, row.length = cfg.max_prompt_length) ∧
      pos.isThree = bk.is_qwen2_vl_image_processor) ∧
    (∀ (pad : Nat) (xs : List Nat), xs.length ≤ cfg.max_prompt_length →
      pad_or_truncate pad cfg.max_prompt_length cfg.truncation xs =
        some (List.replicate (cfg.max_prompt_length - xs.length) pad ++ xs)) := by
  obtain ⟨ex1, prompt, ids, mask, grid, ids', mask', pos', raw, ans, he, hp, hr, hl, hout⟩ :=
    transform_inv h
  obtain ⟨hpt1, hpt2, hpt3⟩ := postprocess_data_inv hp
  obtain ⟨hsh, hrows⟩ := pad_or_truncate_pos_inv hpt3
  subst hout
  have hA_input : lookupRec (assemble_tensors ex1 ids' mask' pos' raw) "input_ids" =
      some (Val.ids ids') := by
    unfold assemble_tensors
    rw [lookup_setKey_ne _ _ _ _ (by decide), lookup_setKey_ne _ _ _ _ (by decide),
      lookup_setKey_ne _ _ _ _ (by decide), lookup_setKey_self]
  have hA_mask : lookupRec (assemble_tensors ex1 ids' mask' pos' raw) "attention_mask" =
      some (Val.ids mask') := by
    unfold assemble_tensors
    rw [lookup_setKey_ne _ _ _ _ (by decide), lookup_setKey_ne _ _ _ _ (by decide),
      lookup_setKey_self]
  have hA_pos : lookupRec (assemble_tensors ex1 ids' mask' pos' raw) "position_ids" =
      some (Val.posv pos') := by
    unfold assemble_tensors
    rw [lookup_setKey_ne _ _ _ _ (by decide), lookup_setKey_self]
  refine ⟨⟨ids', ?_, pad_or_truncate_length hpt1⟩, ⟨mask', ?_, pad_or_truncate_length hpt2⟩,
      ⟨pos', ?_, hrows, by rw [hsh, derive_position_ids_isThree]⟩,
      fun pad xs hle => pad_or_truncate_of_le hle⟩
  · rw [lookup_setKey_ne _ _ _ _ (by decide), lookup_erase_ne _ _ _ ha1, hA_input]
  · rw [lookup_setKey_ne _ _ _ _ (by decide), lookup_erase_ne _ _ _ ha2, hA_mask]
  · rw [lookup_setKey_ne _ _ _ _ (by decide), lookup_erase_ne _ _ _ ha3, hA_pos]

/-- Witness for C1 at the concrete text-only scenario. -/
theorem c1_witness :
    ∃ ids, lookupRec outW "input_ids" = some (Val.ids ids) ∧
      ids.length = cfgW.max_prompt_length :=
  (c1_padded_tensor_shapes cfgW bkW exW outW (by decide) (by decide) (by decide) rfl).1

/-- Claim C3: for every successfully transformed record, `raw_prompt_ids` is the
plain encoding of the final rendered prompt put through the second,
independent truncation decision; truncation keeps sequences of length at
most `max_prompt_length` unchanged, drops from the front for `"left"`
(keeping the last `max_prompt_length` ids), from the end for `"right"`
(keeping the first `max_prompt_length` ids), fails for `"error"`, and the
returned `raw_prompt_ids` always has length at most `max_prompt_length`. -/
theorem c3_raw_prompt_ids_policy (cfg : Config) (bk : Backend) (ex out : Record)
    (ha : cfg.answer_key ≠ "raw_prompt_ids")
    (h : transform cfg bk ex = some out) :
    (∃ ex1 prompt ids mask grid raw,
      encode_phase cfg bk ex = some (ex1, prompt, ids, mask, grid) ∧
      truncate_raw_prompt_ids cfg.max_prompt_length cfg.truncation (bk.tok_encode prompt) =
        some raw ∧
      lookupRec out "raw_prompt_ids" = some (Val.ids raw) ∧
      raw.length ≤ cfg.max_prompt_length) ∧
    (∀ xs : List Nat, xs.length ≤ cfg.max_prompt_length →
      truncate_raw_prompt_ids cfg.max_prompt_length cfg.truncation xs = some xs) ∧
    (∀ xs : List Nat, cfg.max_prompt_length < xs.length →
      truncate_raw_prompt_ids cfg.max_prompt_length Truncation.left xs =
        some (xs.drop (xs.length - cfg.max_prompt_length)) ∧
      truncate_raw_prompt_ids cfg.max_prompt_length Truncation.right xs =
        some (xs.take cfg.max_prompt_length) ∧
      truncate_raw_prompt_ids cfg.max_prompt_length Truncation.error xs = none) := by
  obtain ⟨ex1, prompt, ids, mask, grid, ids', mask', pos', raw, ans, he, hp, hr, hl, hout⟩ :=
    transform_inv h
  subst hout
  refine ⟨⟨ex1, prompt, ids, mask, grid, raw, he, hr, ?_, truncate_raw_length hr⟩, ?_, ?_⟩
  · rw [lookup_setKey_ne _ _ _ _ (by decide), lookup_erase_ne _ _ _ ha]
    unfold assemble_tensors
    rw [lookup_setKey_self]
  · intro xs hle
    unfold truncate_raw_prompt_ids
    rw [if_neg (by omega)]
  · intro xs hgt
    refine ⟨?_, ?_, ?_⟩ <;>
      (unfold truncate_raw_prompt_ids; rw [if_pos (by omega)])

/-- Witness for C3 at the concrete text-only scenario. -/
theorem c3_witness :
    ∃ ex1 prompt ids mask grid raw,
      encode_phase cfgW bkW exW = some (ex1, prompt, ids, mask, grid) ∧
      truncate_raw_prompt_ids cfgW.max_prompt_length cfgW.truncation (bkW.tok_encode prompt) =
        some raw ∧
      lookupRec outW "raw_prompt_ids" = some (Val.ids raw) ∧
      raw.length ≤ cfgW.max_prompt_length :=
  (c3_raw_prompt_ids_policy cfgW bkW exW outW (by decide) rfl).1

/-- Claim C9: the output record keeps every unconsumed input field unchanged,
holds the original answer value under `ground_truth` with the answer key
gone, and, when images were present, has the image key removed and
`multi_modal_data` holding exactly the original pre-normalization image
references. -/
theorem c9_output_frame (cfg : Config) (bk : Backend) (ex out : Record)
    (ha : cfg.answer_key ∉ (["input_ids", "attention_mask", "position_ids", "raw_prompt_ids",
      "ground_truth", "multi_modal_data"] : List String))
    (hi : cfg.image_key ∉ (["input_ids", "attention_mask", "position_ids", "raw_prompt_ids",
      "ground_truth", "multi_modal_data"] : List String))
    (h : transform cfg bk ex = some out) :
    lookupRec out "ground_truth" = lookupRec ex cfg.answer_key ∧
    lookupRec out cfg.answer_key = none ∧
    (∀ k, k ≠ cfg.answer_key → k ≠ cfg.image_key →
      k ∉ (["input_ids", "attention_mask", "position_ids", "raw_prompt_ids",
        "ground_truth", "multi_modal_data"] : List String) →
      lookupRec out k = lookupRec ex k) ∧
    (hasKey ex cfg.image_key = true →
      lookupRec out cfg.image_key = none ∧
      ∃ refs, lookupRec ex cfg.image_key = some (Val.imgs refs) ∧
        lookupRec out "multi_modal_data" = some (Val.mm refs)) := by
  simp only [List.mem_cons, List.not_mem_nil, or_false, not_or] at ha hi
  obtain ⟨ha1, ha2, ha3, ha4, ha5, ha6⟩ := ha
  obtain ⟨hi1, hi2, hi3, hi4, hi5, hi6⟩ := hi
  obtain ⟨ex1, prompt, ids, mask, grid, ids', mask', pos', raw, ans, he, hp, hr, hl, hout⟩ :=
    transform_inv h
  subst hout
  obtain ⟨ps, hps, hbranch⟩ := encode_phase_inv he
  have hAk : ∀ k, k ≠ "input_ids" → k ≠ "attention_mask" → k ≠ "position_ids" →
      k ≠ "raw_prompt_ids" →
      lookupRec (assemble_tensors ex1 ids' mask' pos' raw) k = lookupRec ex1 k := by
    intro k h1 h2 h3 h4
    unfold assemble_tensors
    rw [lookup_setKey_ne _ _ _ _ (Ne.symm h4), lookup_setKey_ne _ _ _ _ (Ne.symm h3),
      lookup_setKey_ne _ _ _ _ (Ne.symm h2), lookup_setKey_ne _ _ _ _ (Ne.symm h1)]
  have hl' : lookupRec ex1 cfg.answer_key = some ans := by
    rw [← hAk cfg.answer_key ha1 ha2 ha3 ha4]
    exact hl
  have hans : lookupRec ex cfg.answer_key = some ans := by
    rcases hbranch with ⟨hk, hex1, _⟩ | ⟨hk, refs, images, hrefs, hmap, hprompt, henc, hex1⟩
    · rw [← hex1]
      exact hl'
    · rw [hex1, lookup_setKey_ne _ _ _ _ (Ne.symm ha6)] at hl'
      by_cases hik : cfg.image_key = cfg.answer_key
      · rw [hik, lookup_erase_self] at hl'
        exact absurd hl' (by simp)
      · rw [lookup_erase_ne _ _ _ hik] at hl'
        exact hl'
  refine ⟨?_, ?_, ?_, ?_⟩
  · rw [lookup_setKey_self, hans]
  · rw [lookup_setKey_ne _ _ _ _ (Ne.symm ha5), lookup_erase_self]
  · intro k hka hki hkl
    simp only [List.mem_cons, List.not_mem_nil, or_false, not_or] at hkl
    obtain ⟨hk1, hk2, hk3, hk4, hk5, hk6⟩ := hkl
    rw [lookup_setKey_ne _ _ _ _ (Ne.symm hk5), lookup_erase_ne _ _ _ (Ne.symm hka),
      hAk k hk1 hk2 hk3 hk4]
    rcases hbranch with ⟨hk, hex1, _⟩ | ⟨hk, refs, images, hrefs, hmap, hprompt, henc, hex1⟩
    · rw [hex1]
    · rw [hex1, lookup_setKey_ne _ _ _ _ (Ne.symm hk6), lookup_erase_ne _ _ _ (Ne.symm hki)]
  · intro hkimg
    rcases hbranch with ⟨hk, hex1, _⟩ | ⟨hk, refs, images, hrefs, hmap, hprompt, henc, hex1⟩
    · rw [hk] at hkimg
      exact absurd hkimg (by simp)
    · refine ⟨?_, refs, hrefs, ?_⟩
      · rw [lookup_setKey_ne _ _ _ _ (Ne.symm hi5)]
        by_cases hik : cfg.answer_key = cfg.image_key
        · rw [← hik, lookup_erase_self]
        · rw [lookup_erase_ne _ _ _ hik, hAk cfg.image_key hi1 hi2 hi3 hi4, hex1,
            lookup_setKey_ne _ _ _ _ (Ne.symm hi6), lookup_erase_self]
      · rw [lookup_setKey_ne _ _ _ _ (by decide), lookup_erase_ne _ _ _ ha6,
          hAk "multi_modal_data" (by decide) (by decide) (by decide) (by decide), hex1,
          lookup_setKey_self]

/-- Witness for C9 at the concrete variant-B image record. -/
theorem c9_witness :
    lookupRec outB "ground_truth" = lookupRec recB cfgB.answer_key ∧
    lookupRec outB cfgB.answer_key = none ∧
    (hasKey recB cfgB.image_key = true →
      lookupRec outB cfgB.image_key = none ∧
      ∃ refs, lookupRec recB cfgB.image_key = some (Val.imgs refs) ∧
        lookupRec outB "multi_modal_data" = some (Val.mm refs)) := by
  have h := c9_output_frame cfgB bkW recB outB (by decide) (by decide) rfl
  exact ⟨h.1, h.2.1, h.2.2.2⟩

/-- Claim C2: for a text-only record whose rendered prompt encodes to `n` ids
with `n ≤ max_prompt_length` and a non-multimodal-rotary backend,
`__getitem__` returns `input_ids` as `L - n` pad ids followed by the `n`
prompt ids, `attention_mask` as `L - n` zeros followed by `n` ones, and
`position_ids` as `L - n` zeros followed by `0, 1, ..., n-1` (the
pre-padding positions are `pos_from_mask`, the clipped cumulative sum of
the all-ones mask). -/
theorem c2_text_only_end_to_end (cfg : Config) (bk : Backend) (ex : Record) (p : String)
    (a : Val) (toks : List Nat)
    (hp : lookupRec ex cfg.prompt_key = some (Val.str p))
    (hni : hasKey ex cfg.image_key = false)
    (hq : bk.is_qwen2_vl_image_processor = false)
    (ha : lookupRec ex cfg.answer_key = some a)
    (ha1 : cfg.answer_key ≠ "input_ids") (ha2 : cfg.answer_key ≠ "attention_mask")
    (ha3 : cfg.answer_key ≠ "position_ids") (ha4 : cfg.answer_key ≠ "raw_prompt_ids")
    (htoks : toks = bk.tok_encode (bk.tok_apply_chat_template
      (build_messages cfg.format_prompt false p)))
    (hle : toks.length ≤ cfg.max_prompt_length) :
    ∃ out, transform cfg bk ex = some out ∧
      lookupRec out "input_ids" = some (Val.ids
        (List.replicate (cfg.max_prompt_length - toks.length) bk.pad_token_id ++ toks)) ∧
      lookupRec out "attention_mask" = some (Val.ids
        (List.replicate (cfg.max_prompt_length - toks.length) 0 ++
          List.replicate toks.length 1)) ∧
      lookupRec out "position_ids" = some (Val.posv (PosIds.one
        (List.replicate (cfg.max_prompt_length - toks.length) 0 ++
          List.range toks.length))) := by
  have he : encode_phase cfg bk ex = some (ex,
      bk.tok_apply_chat_template (build_messages cfg.format_prompt false p),
      toks, List.replicate toks.length 1, none) := by
    simp only [encode_phase, hp, Val.asStr, hni, Bool.false_eq_true, if_false, ← htoks]
  have hd : derive_position_ids bk toks (List.replicate toks.length 1) none =
      PosIds.one (List.range toks.length) := by
    unfold derive_position_ids
    rw [hq]
    simp only [Bool.false_eq_true, if_false, pos_from_mask_ones]
  have hpp : postprocess_data cfg.max_prompt_length bk.pad_token_id cfg.truncation toks
      (List.replicate toks.length 1) (PosIds.one (List.range toks.length)) =
      some (List.replicate (cfg.max_prompt_length - toks.length) bk.pad_token_id ++ toks,
        List.replicate (cfg.max_prompt_length - toks.length) 0 ++
          List.replicate toks.length 1,
        PosIds.one (List.replicate (cfg.max_prompt_length - toks.length) 0 ++
          List.range toks.length)) := by
    have hposleg : pad_or_truncate_pos cfg.max_prompt_length cfg.truncation
        (PosIds.one (List.range toks.length)) =
        some (PosIds.one (List.replicate (cfg.max_prompt_length - toks.length) 0 ++
          List.range toks.length)) := by
      simp only [pad_or_truncate_pos]
      rw [pad_or_truncate_of_le (show (List.range toks.length).length ≤ _ by
        simpa using hle)]
      simp
    unfold postprocess_data
    rw [pad_or_truncate_of_le hle,
      pad_or_truncate_of_le (show (List.replicate toks.length 1).length ≤ _ by
        simpa using hle), hposleg]
    simp
  have hraw : truncate_raw_prompt_ids cfg.max_prompt_length cfg.truncation toks =
      some toks := by
    unfold truncate_raw_prompt_ids
    rw [if_neg (by omega)]
  have hlookA : lookupRec (assemble_tensors ex
      (List.replicate (cfg.max_prompt_length - toks.length) bk.pad_token_id ++ toks)
      (List.replicate (cfg.max_prompt_length - toks.length) 0 ++ List.replicate toks.length 1)
      (PosIds.one (List.replicate (cfg.max_prompt_length - toks.length) 0 ++
        List.range toks.length))
      toks) cfg.answer_key = some a := by
    unfold assemble_tensors
    rw [lookup_setKey_ne _ _ _ _ (Ne.symm ha4), lookup_setKey_ne _ _ _ _ (Ne.symm ha3),
      lookup_setKey_ne _ _ _ _ (Ne.symm ha2), lookup_setKey_ne _ _ _ _ (Ne.symm ha1), ha]
  have hpop : popKey (assemble_tensors ex
      (List.replicate (cfg.max_prompt_length - toks.length) bk.pad_token_id ++ toks)
      (List.replicate (cfg.max_prompt_length - toks.length) 0 ++ List.replicate toks.length 1)
      (PosIds.one (List.replicate (cfg.max_prompt_length - toks.length) 0 ++
        List.range toks.length))
      toks) cfg.answer_key = some (a, eraseKey (assemble_tensors ex
      (List.replicate (cfg.max_prompt_length - toks.length) bk.pad_token_id ++ toks)
      (List.replicate (cfg.max_prompt_length - toks.length) 0 ++ List.replicate toks.length 1)
      (PosIds.one (List.replicate (cfg.max_prompt_length - toks.length) 0 ++
        List.range toks.length))
      toks) cfg.answer_key) := by
    unfold popKey
    rw [hlookA]
  have ht : transform cfg bk ex = some (setKey (eraseKey (assemble_tensors ex
      (List.replicate (cfg.max_prompt_length - toks.length) bk.pad_token_id ++ toks)
      (List.replicate (cfg.max_prompt_length - toks.length) 0 ++ List.replicate toks.length 1)
      (PosIds.one (List.replicate (cfg.max_prompt_length - toks.length) 0 ++
        List.range toks.length))
      toks) cfg.answer_key) "ground_truth" a) := by
    simp only [transform, he, hd, hpp, ← htoks, hraw, hpop]
  refine ⟨_, ht, ?_, ?_, ?_⟩
  · rw [lookup_setKey_ne _ _ _ _ (by decide), lookup_erase_ne _ _ _ ha1]
    unfold assemble_tensors
    rw [lookup_setKey_ne _ _ _ _ (by decide), lookup_setKey_ne _ _ _ _ (by decide),
      lookup_setKey_ne _ _ _ _ (by decide), lookup_setKey_self]
  · rw [lookup_setKey_ne _ _ _ _ (by decide), lookup_erase_ne _ _ _ ha2]
    unfold assemble_tensors
    rw [lookup_setKey_ne _ _ _ _ (by decide), lookup_setKey_ne _ _ _ _ (by decide),
      lookup_setKey_self]
  · rw [lookup_setKey_ne _ _ _ _ (by decide), lookup_erase_ne _ _ _ ha3]
    unfold assemble_tensors
    rw [lookup_setKey_ne _ _ _ _ (by decide), lookup_setKey_self]

/-- Witness for C2: the spec's scenario A (`"2+2="` encoding to 4 ids,
`max_prompt_length = 8`, pad id 0). -/
theorem c2_witness :
    ∃ out, transform cfgW bkW exW = some out ∧
      lookupRec out "input_ids" = some (Val.ids
        (List.replicate (cfgW.max_prompt_length - ([1, 2, 3, 4] : List Nat).length)
          bkW.pad_token_id ++ [1, 2, 3, 4])) ∧
      lookupRec out "attention_mask" = some (Val.ids
        (List.replicate (cfgW.max_prompt_length - ([1, 2, 3, 4] : List Nat).length) 0 ++
          List.replicate ([1, 2, 3, 4] : List Nat).length 1)) ∧
      lookupRec out "position_ids" = some (Val.posv (PosIds.one
        (List.replicate (cfgW.max_prompt_length - ([1, 2, 3, 4] : List Nat).length) 0 ++
          List.range ([1, 2, 3, 4] : List Nat).length))) :=
  c2_text_only_end_to_end cfgW bkW exW "2+2=" (Val.str "4") [1, 2, 3, 4]
    (by decide) (by decide) (by decide) (by decide) (by decide) (by decide) (by decide)
    (by decide) (by decide) (by decide)

/-- Claim C5 (refuting the purity claim for variant B): the backing store of
`RLHFSelfDataset` aliases the returned dict, so the first access mutates
the stored record in place (the image and answer keys are popped, the
output fields are written in), and a second access of the same index fails
at the answer pop instead of succeeding with identical tensors. -/
theorem c5_self_dataset_mutation :
    self_getitem cfgB bkW dsB 0 = some (outB, [outB]) ∧
    lookupRec recB "answer" = some (Val.str "0") ∧
    lookupRec outB "answer" = none ∧
    lookupRec outB "images" = none ∧
    outB ≠ recB ∧
    self_getitem cfgB bkW [outB] 0 = none :=
  ⟨by decide, by decide, by decide, by decide, by decide, by decide⟩

/-- Claim C6: with `filter_overlong_prompts` enabled, variant A's construction
keeps exactly the records whose tokenized chat-template rendering (with
generation prompt) fits in `max_prompt_length`; with the flag off nothing
is dropped; and per-index access is plain transformation with no
filtering. -/
theorem c6_overlong_filter (cfg : Config) (bk : Backend) (recs r : List Record)
    (hflag : cfg.filter_overlong_prompts = true)
    (h : init_dataset cfg bk recs = some r) :
    (∀ ex, ex ∈ r ↔ ex ∈ recs ∧ filter_pred cfg bk ex = some true) ∧
    (∀ ex ∈ recs, ∃ ps, lookupRec ex cfg.prompt_key = some (Val.str ps) ∧
      (filter_pred cfg bk ex = some true ↔
        ((if bk.processor_some then bk.proc_apply_chat_template_tok
          else bk.tok_apply_chat_template_tok)
          (build_messages cfg.format_prompt (hasKey ex cfg.image_key) ps)).length ≤
          cfg.max_prompt_length)) ∧
    (∀ cfg' : Config, cfg'.filter_overlong_prompts = false →
      init_dataset cfg' bk recs = some recs) ∧
    (∀ (ds : List Record) (i : Nat) (ex : Record), ds[i]? = some ex →
      rlhf_getitem cfg bk ds i = transform cfg bk ex) := by
  unfold init_dataset at h
  rw [hflag] at h
  simp only [if_true] at h
  refine ⟨filter_records_mem h, ?_, ?_, ?_⟩
  · intro ex hex
    obtain ⟨b, hb⟩ := filter_records_all_some h ex hex
    cases hl : lookupRec ex cfg.prompt_key with
    | none =>
      simp only [filter_pred, hl] at hb
      exact absurd hb (by simp)
    | some pv =>
      cases hs : pv.asStr with
      | none =>
        simp only [filter_pred, hl, hs] at hb
        exact absurd hb (by simp)
      | some ps =>
        have hps : pv = Val.str ps := by
          cases pv <;> simp [Val.asStr] at hs <;> rw [hs]
        refine ⟨ps, by rw [hps], ?_⟩
        cases hproc : bk.processor_some <;> simp [filter_pred, hl, hs, hproc]
  · intro cfg' hf
    unfold init_dataset
    rw [hf]
    simp
  · intro ds i ex hex
    simp only [rlhf_getitem, hex]

/-- Witness for C6: a two-record sequence where the 8-token prompt is
dropped and the 2-token prompt is kept under `max_prompt_length = 4`. -/
theorem c6_witness : exS6 ∈ r6 ∧ exL6 ∉ r6 := by
  have h := c6_overlong_filter cfg6 bkW recs6 r6 rfl (by decide)
  constructor
  · exact (h.1 exS6).mpr ⟨by decide, by decide⟩
  · intro hmem
    have h2 := (h.1 exL6).mp hmem
    exact absurd h2.2 (by decide)

end VerlDataset
